import Mathlib

/-!
Shallow embedding of the batch transcription job subsystem of open-speech:
the SQLite-backed job store (src/batch/store.py) and the async batch worker
(src/batch/worker.py).  Python dictionaries are modelled as association
lists over a small dynamic value type, the SQLite table as a list of rows,
timestamps as naturals, and the worker's interaction with the event loop
(await outcomes, cancellation delivery, store-write faults) as explicit
oracles passed to the job-processing function.
-/

/-- A small model of Python runtime values as they occur in the options and
router-result dictionaries of the batch subsystem. -/
inductive PyVal
  | none
  | str (s : String)
  | num (n : Int)
  | bool (b : Bool)
  deriving DecidableEq, Repr

/-- Python truthiness for the modelled values: None and empty string and 0
and False are falsy. -/
def PyVal.truthy : PyVal → Bool
  | PyVal.none => false
  | PyVal.str s => s ≠ ""
  | PyVal.num n => n ≠ 0
  | PyVal.bool b => b

/-- A Python dict with string keys, modelled as an association list. -/
abbrev PyDict := List (String × PyVal)

/-- Python `d.get(k)`: the value for key k, or None when the key is absent
(conflating, as Python's dict.get does, a missing key with a stored None). -/
def pyGet (d : PyDict) (k : String) : PyVal :=
  (List.lookup k d).getD PyVal.none

/-- Raw audio bytes (opaque to every claim; only threaded through). -/
abbrev Bytes := List Nat

/-- A per-file result dict built by BatchWorker._transcribe_file
(src/batch/worker.py lines 130-150): the success dict has keys filename,
status="done", text, language, duration, model, segments,
processing_time_ms; the failure dict has keys filename, status="failed",
error, processing_time_ms. -/
inductive FileResult
  | done (filename text language : String) (duration : Int) (model : String)
      (segments : List PyVal) (processing_time_ms : Nat)
  | failed (filename err : String) (processing_time_ms : Nat)
  deriving DecidableEq, Repr

/-- The "filename" entry of a per-file result dict. -/
def FileResult.filename : FileResult → String
  | FileResult.done fn _ _ _ _ _ _ => fn
  | FileResult.failed fn _ _ => fn

/-- The "status" entry of a per-file result dict. -/
def FileResult.status : FileResult → String
  | FileResult.done _ _ _ _ _ _ _ => "done"
  | FileResult.failed _ _ _ => "failed"

/-- The "error" entry of a per-file result dict (present only on failure). -/
def FileResult.errorMsg : FileResult → Option String
  | FileResult.done _ _ _ _ _ _ _ => Option.none
  | FileResult.failed _ e _ => some e

/-- The "processing_time_ms" entry of a per-file result dict. -/
def FileResult.processingTimeMs : FileResult → Nat
  | FileResult.done _ _ _ _ _ _ ms => ms
  | FileResult.failed _ _ ms => ms

/-- The BatchJob dataclass (src/batch/store.py lines 16-27).  Timestamps
are naturals; started_at / finished_at / error are nullable. -/
structure BatchJob where
  job_id : String
  status : String := "queued"
  created_at : Nat := 0
  started_at : Option Nat := Option.none
  finished_at : Option Nat := Option.none
  model : String := ""
  files : List String := []
  options : PyDict := []
  results : List FileResult := []
  error : Option String := Option.none
  deriving DecidableEq, Repr

/-- The JSON payload blob serialized by BatchJobStore._payload
(src/batch/store.py lines 104-111): exactly the fields model, files,
options, results, error.  Notably created_at and job_id are NOT part of
the payload. -/
structure Payload where
  model : String
  files : List String
  options : PyDict
  results : List FileResult
  error : Option String
  deriving DecidableEq, Repr

/-- One row of the batch_jobs table (schema at src/batch/store.py lines
53-62): columns job_id, status, created_at, started_at, finished_at, and
the serialized payload blob. -/
structure Row where
  job_id : String
  status : String
  created_at : Nat
  started_at : Option Nat
  finished_at : Option Nat
  payload : Payload
  deriving DecidableEq, Repr

/-- The batch_jobs table, as the list of its rows. -/
abbrev Store := List Row

/-- BatchJobStore._payload (src/batch/store.py lines 104-111). -/
def payloadOf (job : BatchJob) : Payload :=
  { model := job.model
    files := job.files
    options := job.options
    results := job.results
    error := job.error }

/-- BatchJobStore._job_from_row (src/batch/store.py lines 89-102):
reassembles a BatchJob from the row columns plus the payload blob. -/
def jobFromRow (row : Row) : BatchJob :=
  { job_id := row.job_id
    status := row.status
    created_at := row.created_at
    started_at := row.started_at
    finished_at := row.finished_at
    model := row.payload.model
    files := row.payload.files
    options := row.payload.options
    results := row.payload.results
    error := row.payload.error }

/-- The row inserted for a job by BatchJobStore.create
(src/batch/store.py lines 113-122). -/
def rowOf (job : BatchJob) : Row :=
  { job_id := job.job_id
    status := job.status
    created_at := job.created_at
    started_at := job.started_at
    finished_at := job.finished_at
    payload := payloadOf job }

/-- BatchJobStore.create (src/batch/store.py lines 113-122): INSERT of a
new row.  job_id is the table's PRIMARY KEY, so inserting a duplicate id
raises sqlite3.IntegrityError, modelled as Option.none. -/
def BatchJobStore.create (st : Store) (job : BatchJob) : Option Store :=
  if st.any (fun r => r.job_id == job.job_id) then Option.none
  else some (st ++ [rowOf job])

/-- BatchJobStore.get (src/batch/store.py lines 124-131): SELECT by
primary key, deserialized through _job_from_row. -/
def BatchJobStore.get (st : Store) (jobId : String) : Option BatchJob :=
  (st.find? (fun r => r.job_id == jobId)).map jobFromRow

/-- The keyword-argument set of one BatchJobStore.update call: for each
attribute of the BatchJob dataclass, either absent (Option.none) or
supplied with a value.  (Keys that are not BatchJob attributes are
silently dropped by the hasattr guard at src/batch/store.py line 156 and
are not modelled.) -/
structure UpdateFields where
  job_id : Option String := Option.none
  status : Option String := Option.none
  created_at : Option Nat := Option.none
  started_at : Option (Option Nat) := Option.none
  finished_at : Option (Option Nat) := Option.none
  model : Option String := Option.none
  files : Option (List String) := Option.none
  options : Option PyDict := Option.none
  results : Option (List FileResult) := Option.none
  error : Option (Option String) := Option.none
  deriving DecidableEq, Repr

/-- The in-memory effect of BatchJobStore.update's two setattr loops
(src/batch/store.py lines 144-157): every supplied field is set on the
deserialized job object. -/
def applyFields (job : BatchJob) (f : UpdateFields) : BatchJob :=
  { job_id := f.job_id.getD job.job_id
    status := f.status.getD job.status
    created_at := f.created_at.getD job.created_at
    started_at := f.started_at.getD job.started_at
    finished_at := f.finished_at.getD job.finished_at
    model := f.model.getD job.model
    files := f.files.getD job.files
    options := f.options.getD job.options
    results := f.results.getD job.results
    error := f.error.getD job.error }

/-- The row written back by BatchJobStore.update (src/batch/store.py lines
146-165): the status / started_at / finished_at columns are rewritten
only when supplied (and when not supplied they keep their old value, which
equals the mutated job's value anyway since the job was read from the
row), the payload column is always rewritten from the mutated job, and
the job_id and created_at columns are never written. -/
def updatedRow (row : Row) (f : UpdateFields) : Row :=
  { job_id := row.job_id
    status := (applyFields (jobFromRow row) f).status
    created_at := row.created_at
    started_at := (applyFields (jobFromRow row) f).started_at
    finished_at := (applyFields (jobFromRow row) f).finished_at
    payload := payloadOf (applyFields (jobFromRow row) f) }

/-- BatchJobStore.update (src/batch/store.py lines 133-167): read the row
by id (returning False with no effect when absent), apply the supplied
fields, write the row back, return True. -/
def BatchJobStore.update (st : Store) (jobId : String) (f : UpdateFields) :
    Bool × Store :=
  match st.find? (fun r => r.job_id == jobId) with
  | Option.none => (false, st)
  | some row =>
      (true, st.map (fun r => if r.job_id == jobId then updatedRow row f else r))

/-- The descending-created_at ordering used by the ORDER BY created_at
DESC clause of BatchJobStore.list_jobs. -/
def rowGeCreated (a b : Row) : Prop := b.created_at ≤ a.created_at

instance : DecidableRel rowGeCreated :=
  fun a b => Nat.decLe b.created_at a.created_at

instance : IsTotal Row rowGeCreated :=
  ⟨fun a b => Nat.le_total b.created_at a.created_at⟩

instance : IsTrans Row rowGeCreated :=
  ⟨fun _ _ _ hab hbc => Nat.le_trans hbc hab⟩

/-- BatchJobStore.list_jobs (src/batch/store.py lines 169-183): an
optional status filter (applied only when the Python string is truthy,
i.e. non-None and non-empty, per the `if status:` test at line 172),
ORDER BY created_at DESC, LIMIT.  The SQL sort is modelled by insertion
sort under the descending ordering. -/
def BatchJobStore.list_jobs (st : Store) (limit : Nat) (status : Option String) :
    List BatchJob :=
  match status with
  | some s =>
      if s = "" then
        (((st.insertionSort rowGeCreated).take limit).map jobFromRow)
      else
        ((((st.filter (fun r => r.status == s)).insertionSort rowGeCreated).take limit).map jobFromRow)
  | Option.none =>
      (((st.insertionSort rowGeCreated).take limit).map jobFromRow)

/-- BatchJobStore.delete (src/batch/store.py lines 185-191): DELETE by id,
returning whether a row was removed. -/
def BatchJobStore.delete (st : Store) (jobId : String) : Bool × Store :=
  (st.any (fun r => r.job_id == jobId), st.filter (fun r => !(r.job_id == jobId)))

/-- The fields of one dict returned by the router's transcribe call, as
read by BatchWorker._transcribe_file via result.get with defaults
(src/batch/worker.py lines 134-138): each Option.none stands for a key
absent from the router's result dict. -/
structure RouterRes where
  text : Option String := Option.none
  language : Option String := Option.none
  duration : Option Int := Option.none
  segments : Option (List PyVal) := Option.none
  deriving DecidableEq, Repr

/-- The keyword arguments BatchWorker._transcribe_file forwards to
router.transcribe; the dict built at src/batch/worker.py lines 113-119
only ever holds the keys language, response_format, temperature. -/
structure Kwargs where
  language : Option PyVal := Option.none
  response_format : Option PyVal := Option.none
  temperature : Option PyVal := Option.none
  deriving DecidableEq, Repr

/-- The kwargs construction of BatchWorker._transcribe_file
(src/batch/worker.py lines 113-119): language and response_format are
included when options.get(key) is truthy, temperature when
options.get("temperature") is not None. -/
def buildKwargs (options : PyDict) : Kwargs :=
  let k0 : Kwargs := {}
  let k1 := if (pyGet options "language").truthy then
      { k0 with language := some (pyGet options "language") } else k0
  let k2 := if (pyGet options "response_format").truthy then
      { k1 with response_format := some (pyGet options "response_format") } else k1
  if pyGet options "temperature" ≠ PyVal.none then
      { k2 with temperature := some (pyGet options "temperature") } else k2

/-- The outcome of awaiting the router call for one file, seen from
BatchWorker._transcribe_file's try block: either the call returns a
result dict (with the measured elapsed milliseconds), or it raises an
Exception with message str(e). -/
inductive AwaitOutcome
  | ok (res : RouterRes) (ms : Nat)
  | exn (msg : String) (ms : Nat)
  deriving DecidableEq, Repr

/-- BatchWorker._transcribe_file (src/batch/worker.py lines 102-150) as a
function of the await outcome: on return it builds the success dict
(filling text / language / duration / segments via result.get with
defaults), on any Exception it builds the failure dict with error str(e);
processing_time_ms is recorded in both branches. -/
def transcribeFile (filename : String) (model : String) (_options : PyDict)
    (a : AwaitOutcome) : FileResult :=
  match a with
  | AwaitOutcome.ok res ms =>
      FileResult.done filename (res.text.getD "") (res.language.getD "")
        (res.duration.getD 0) model (res.segments.getD []) ms
  | AwaitOutcome.exn msg ms => FileResult.failed filename msg ms

/-- `model = options.get("model", "")` at src/batch/worker.py line 62,
with the value read as a string (the routes always store a string there). -/
def optModel (options : PyDict) : String :=
  match List.lookup "model" options with
  | some (PyVal.str s) => s
  | _ => ""

/-- What happens at the suspension point of one file's router await inside
BatchWorker._process_job's loop: either the await completes (returning or
raising an Exception, both captured by _transcribe_file), or an
asyncio.CancelledError is delivered there.  CancelledError is a
BaseException, so _transcribe_file's `except Exception` does not catch it
and it propagates to _process_job's own handler. -/
inductive Event
  | ret (a : AwaitOutcome)
  | cancel
  deriving DecidableEq, Repr

/-- How BatchWorker._process_job's body terminates towards the scheduler:
normal return (successful completion, or a fault absorbed by the
`except Exception` handler), or re-raised cancellation. -/
inductive JobExit
  | normal
  | cancelled
  deriving DecidableEq, Repr

/-- The update-call fields of the cancellation / fault handlers of
BatchWorker._process_job (src/batch/worker.py lines 81-100):
status="failed", finished_at=now, error=msg. -/
def failedFields (tEnd : Nat) (msg : String) : UpdateFields :=
  { status := some "failed"
    finished_at := some (some tEnd)
    error := some (some msg) }

/-- The per-file loop of BatchWorker._process_job (src/batch/worker.py
lines 64-68) together with the final done-update (lines 70-75) and the
two exception handlers (lines 81-100).  Parameters: `events` gives, per
file index, what happens at that file's await; `updBehav` gives, per
store.update call inside the try block (call 0 is the running-update,
call i+1 the incremental update after file i, call n+1 the final
done-update for an n-file job), whether that call raises (some msg) or
succeeds; `i` counts files already processed and `acc` is the in-memory
results list.  A raising store.update leaves the store unchanged (the
transaction never commits) and control moves to the `except Exception`
handler; a delivered cancellation moves control to the
`except asyncio.CancelledError` handler, which persists the failed state
and re-raises. -/
def processLoop (jobId : String) (model : String) (options : PyDict)
    (events : Nat → Event) (updBehav : Nat → Option String) (tEnd : Nat) :
    List (String × Bytes) → Nat → List FileResult → Store → Store × JobExit
  | [], i, acc, st =>
      match updBehav (i + 1) with
      | some msg =>
          ((BatchJobStore.update st jobId (failedFields tEnd msg)).2, JobExit.normal)
      | Option.none =>
          ((BatchJobStore.update st jobId
              { status := some "done"
                finished_at := some (some tEnd)
                results := some acc }).2, JobExit.normal)
  | (fn, _audio) :: rest, i, acc, st =>
      match events i with
      | Event.cancel =>
          ((BatchJobStore.update st jobId (failedFields tEnd "Cancelled")).2,
            JobExit.cancelled)
      | Event.ret a =>
          match updBehav (i + 1) with
          | some msg =>
              ((BatchJobStore.update st jobId (failedFields tEnd msg)).2, JobExit.normal)
          | Option.none =>
              processLoop jobId model options events updBehav tEnd rest (i + 1)
                (acc ++ [transcribeFile fn model options a])
                (BatchJobStore.update st jobId
                  { results := some (acc ++ [transcribeFile fn model options a]) }).2

/-- BatchWorker._process_job (src/batch/worker.py lines 52-100): first the
running-update with started_at (update call 0), then the per-file loop,
the final done-update, and the two handlers; tStart and tEnd stand for
the time.time() readings. -/
def processJob (st : Store) (jobId : String) (files : List (String × Bytes))
    (options : PyDict) (events : Nat → Event) (updBehav : Nat → Option String)
    (tStart tEnd : Nat) : Store × JobExit :=
  match updBehav 0 with
  | some msg =>
      ((BatchJobStore.update st jobId (failedFields tEnd msg)).2, JobExit.normal)
  | Option.none =>
      processLoop jobId (optModel options) options events updBehav tEnd files 0 []
        (BatchJobStore.update st jobId
          { status := some "running", started_at := some (some tStart) }).2

/-- One task handle in the worker pool's tracking map: whether the task
has finished, and whether cancellation has been requested on it. -/
structure TaskH where
  done : Bool
  cancelRequested : Bool := false
  deriving DecidableEq, Repr

/-- The pool's job_id → task handle tracking map (BatchWorker._tasks). -/
abbrev TaskMap := List (String × TaskH)

/-- BatchWorker.cancel (src/batch/worker.py lines 154-160): look up the
task handle; if one exists and is not done, request cancellation and
return True; otherwise return False.  (`if task` is always true for a
Task object, so the guard is exactly presence plus not-done.) -/
def BatchWorker.cancel (tasks : TaskMap) (jobId : String) : Bool × TaskMap :=
  match List.lookup jobId tasks with
  | some t =>
      if t.done = false then
        (true, tasks.map (fun p =>
          if p.1 == jobId then (p.1, { p.2 with cancelRequested := true }) else p))
      else (false, tasks)
  | Option.none => (false, tasks)

/-- Specification-side helper: the results the loop appends for a run in
which every event at indices i, i+1, ... is a completed await (no
cancellation); retOutcome extracts the await outcome (its value on a
cancel event is never used under that hypothesis). -/
def retOutcome : Event → AwaitOutcome
  | Event.ret a => a
  | Event.cancel => AwaitOutcome.exn "" 0

/-- Specification-side helper: the per-file results produced for a file
list whose first file sits at event index i, assuming every await
completes. -/
def expectedResults (model : String) (options : PyDict) (events : Nat → Event) :
    List (String × Bytes) → Nat → List FileResult
  | [], _ => []
  | (fn, _) :: rest, i =>
      transcribeFile fn model options (retOutcome (events i)) ::
        expectedResults model options events rest (i + 1)

/-- A freshly created job fixture used by closed witnesses. -/
def exJob : BatchJob :=
  { job_id := "j1"
    status := "queued"
    created_at := 5
    started_at := Option.none
    finished_at := Option.none
    model := "base"
    files := ["a.wav", "b.wav"]
    options := [("model", PyVal.str "base")]
    results := []
    error := Option.none }

/-- The row of the job fixture. -/
def exRow : Row := rowOf exJob

/-- A one-job store fixture. -/
def exSt : Store := [exRow]

/-- A second job fixture, created later, with status done. -/
def exJob2 : BatchJob :=
  { job_id := "j2"
    status := "done"
    created_at := 9
    started_at := some 10
    finished_at := some 11
    model := "base"
    files := ["c.wav"]
    options := []
    results := []
    error := Option.none }

/-- A two-job store fixture. -/
def exSt2 : Store := [exRow, rowOf exJob2]

/-- An event oracle in which every await completes successfully. -/
def allOkEvents : Nat → Event :=
  fun _ => Event.ret (AwaitOutcome.ok { text := some "hello world" } 5)

/-- An event oracle in which the first await succeeds and the second one
raises an Exception with message "disk error". -/
def mixedEvents : Nat → Event :=
  fun i => if i = 1 then Event.ret (AwaitOutcome.exn "disk error" 7)
           else Event.ret (AwaitOutcome.ok { text := some "hello world" } 5)

/-- An event oracle in which the first await succeeds and a cancellation
is delivered at the second file's await. -/
def cancelAt1Events : Nat → Event :=
  fun i => if i = 1 then Event.cancel
           else Event.ret (AwaitOutcome.ok { text := some "hello world" } 5)

/-- An update-call behaviour oracle in which no store.update call raises. -/
def noFaults : Nat → Option String :=
  fun _ => Option.none

/-- An update-call behaviour oracle in which the incremental update after
the first file (call 1) raises "database is locked". -/
def faultAt1 : Nat → Option String :=
  fun n => if n = 1 then some "database is locked" else Option.none

/-- A task-map fixture: a running task for j1, a finished task for j2. -/
def exTasks : TaskMap :=
  [("j1", { done := false }), ("j2", { done := true })]

/-- An event oracle in which the first await succeeds and the second one
raises an Exception whose message is the empty string, as Python's str(e)
yields for a bare Exception(). -/
def emptyMsgEvents : Nat → Event :=
  fun i => if i = 1 then Event.ret (AwaitOutcome.exn "" 3)
           else Event.ret (AwaitOutcome.ok { text := some "hello world" } 5)

/-- Helper: the written-back row is found again under the same job_id. -/
theorem find?_map_update (jobId : String) (f : UpdateFields) (row : Row) :
    ∀ st : Store, st.find? (fun r => r.job_id == jobId) = some row →
      (st.map (fun r => if r.job_id == jobId then updatedRow row f else r)).find?
        (fun r => r.job_id == jobId) = some (updatedRow row f) := by
  intro st
  induction st with
  | nil => intro h; simp at h
  | cons r rest ih =>
      intro h
      by_cases hr : (r.job_id == jobId) = true
      · rw [List.find?_cons_of_pos (p := fun r : Row => r.job_id == jobId) _ hr] at h
        injection h with h
        subst h
        have hid : ((updatedRow r f).job_id == jobId) = true := hr
        simp only [List.map_cons, if_pos hr]
        exact List.find?_cons_of_pos (p := fun r : Row => r.job_id == jobId) _ hid
      · rw [List.find?_cons_of_neg (p := fun r : Row => r.job_id == jobId) _ hr] at h
        simp only [List.map_cons, if_neg hr]
        rw [List.find?_cons_of_neg (p := fun r : Row => r.job_id == jobId) _ hr]
        exact ih h

/-- Helper: update on a present job_id returns true with the mapped store. -/
theorem update_eq_of_found (st : Store) (jobId : String) (f : UpdateFields) (row : Row)
    (h : st.find? (fun r => r.job_id == jobId) = some row) :
    BatchJobStore.update st jobId f =
      (true, st.map (fun r => if r.job_id == jobId then updatedRow row f else r)) := by
  unfold BatchJobStore.update
  rw [h]

/-- Helper: get after a successful update returns the written-back job. -/
theorem get_after_update (st : Store) (jobId : String) (f : UpdateFields) (row : Row)
    (h : st.find? (fun r => r.job_id == jobId) = some row) :
    BatchJobStore.get (BatchJobStore.update st jobId f).2 jobId =
      some (jobFromRow (updatedRow row f)) := by
  rw [update_eq_of_found st jobId f row h]
  unfold BatchJobStore.get
  rw [find?_map_update jobId f row st h]
  rfl

/-- Helper: the round trip through row and payload reproduces the job with
the supplied fields applied, except that job_id and created_at come from
the row's never-rewritten columns. -/
theorem jobFromRow_updatedRow (row : Row) (f : UpdateFields) :
    jobFromRow (updatedRow row f) =
      { applyFields (jobFromRow row) f with
          job_id := row.job_id
          created_at := row.created_at } := rfl

/-- C4 (amended): update on a missing job_id returns false and leaves the
store unchanged; update on an existing job_id returns true and a
subsequent get returns a record in which exactly the supplied fields
among status, started_at, finished_at, model, files, options, results,
error have the supplied values, every field not supplied is unchanged,
and the job_id and created_at fields stay unchanged even when supplied. -/
theorem update_applies_exactly_supplied_updatable_fields (st : Store) (jobId : String)
    (f : UpdateFields) :
    (st.find? (fun r => r.job_id == jobId) = Option.none →
      BatchJobStore.update st jobId f = (false, st)) ∧
    (∀ row, st.find? (fun r => r.job_id == jobId) = some row →
      (BatchJobStore.update st jobId f).1 = true ∧
      BatchJobStore.get (BatchJobStore.update st jobId f).2 jobId = some
        { job_id := (jobFromRow row).job_id
          status := f.status.getD (jobFromRow row).status
          created_at := (jobFromRow row).created_at
          started_at := f.started_at.getD (jobFromRow row).started_at
          finished_at := f.finished_at.getD (jobFromRow row).finished_at
          model := f.model.getD (jobFromRow row).model
          files := f.files.getD (jobFromRow row).files
          options := f.options.getD (jobFromRow row).options
          results := f.results.getD (jobFromRow row).results
          error := f.error.getD (jobFromRow row).error }) := by
  constructor
  · intro h
    unfold BatchJobStore.update
    rw [h]
  · intro row h
    constructor
    · rw [update_eq_of_found st jobId f row h]
    · rw [get_after_update st jobId f row h]
      rfl

/-- C4 witness: a concrete successful status update. -/
theorem update_applies_exactly_supplied_updatable_fields_witness :
    (BatchJobStore.update exSt "j1" { status := some "running" }).1 = true ∧
    BatchJobStore.get (BatchJobStore.update exSt "j1" { status := some "running" }).2 "j1" =
      some { exJob with status := "running" } :=
  (update_applies_exactly_supplied_updatable_fields exSt "j1"
    { status := some "running" }).2 exRow (by decide)

/-- C4 counterexample: supplying created_at to update is accepted (returns
true) but the stored created_at is not changed to the supplied value, so
the claim that exactly the supplied fields take the supplied values fails. -/
theorem update_supplied_created_at_not_applied :
    (BatchJobStore.update exSt "j1" { created_at := some 42 }).1 = true ∧
    (BatchJobStore.get (BatchJobStore.update exSt "j1" { created_at := some 42 }).2 "j1").map
      BatchJob.created_at = some 5 ∧
    (5 : Nat) ≠ 42 := by decide

/-- C10: update never changes a job's creation time, even when a
created_at value is among the supplied fields. -/
theorem update_never_changes_created_at (st : Store) (jobId : String) (f : UpdateFields) :
    (BatchJobStore.get (BatchJobStore.update st jobId f).2 jobId).map BatchJob.created_at =
      (BatchJobStore.get st jobId).map BatchJob.created_at := by
  cases h : st.find? (fun r => r.job_id == jobId) with
  | none =>
      unfold BatchJobStore.update
      rw [h]
  | some row =>
      rw [get_after_update st jobId f row h]
      unfold BatchJobStore.get
      rw [h]
      rfl

/-- Helper: find? over an appended list when the first part has no match. -/
theorem find?_append_of_none (p : Row → Bool) :
    ∀ st : Store, st.find? p = Option.none → ∀ l : Store, (st ++ l).find? p = l.find? p := by
  intro st
  induction st with
  | nil => intro _ l; rfl
  | cons r rest ih =>
      intro h l
      by_cases hr : p r = true
      · rw [List.find?_cons_of_pos _ hr] at h
        exact absurd h (by simp)
      · rw [List.find?_cons_of_neg _ hr] at h
        rw [List.cons_append, List.find?_cons_of_neg _ hr]
        exact ih h l

/-- C7: for a fresh job_id, create succeeds and an immediate get returns
the created record exactly (the store round trip preserves every field). -/
theorem create_then_get_roundtrip (st : Store) (job : BatchJob)
    (hfresh : ∀ r ∈ st, r.job_id ≠ job.job_id) :
    BatchJobStore.create st job = some (st ++ [rowOf job]) ∧
    BatchJobStore.get (st ++ [rowOf job]) job.job_id = some job := by
  have hnone : st.find? (fun r => r.job_id == job.job_id) = Option.none := by
    rw [List.find?_eq_none]
    intro r hr
    simpa using hfresh r hr
  constructor
  · have hany : st.any (fun r => r.job_id == job.job_id) = false := by
      rw [List.any_eq_false]
      intro r hr
      simpa using hfresh r hr
    unfold BatchJobStore.create
    rw [hany]
    rfl
  · unfold BatchJobStore.get
    rw [find?_append_of_none _ st hnone]
    have hself : ((rowOf job).job_id == job.job_id) = true := by
      simp [rowOf]
    rw [List.find?_cons_of_pos (p := fun r : Row => r.job_id == job.job_id) _ hself]
    rfl

/-- C7 witness: creating the fixture job in an empty store and reading it
back. -/
theorem create_then_get_roundtrip_witness :
    BatchJobStore.create [] exJob = some ([] ++ [rowOf exJob]) ∧
    BatchJobStore.get ([] ++ [rowOf exJob]) exJob.job_id = some exJob :=
  create_then_get_roundtrip [] exJob (by intro r hr; simp at hr)

/-- C6: cancel returns true exactly when a live, non-finished task handle
for the job_id is in the tracking map, and whenever it returns false it
leaves the map unchanged (and it never raises: it is a total function). -/
theorem cancel_true_iff_live_task (tasks : TaskMap) (jobId : String) :
    ((BatchWorker.cancel tasks jobId).1 = true ↔
      ∃ t, List.lookup jobId tasks = some t ∧ t.done = false) ∧
    ((BatchWorker.cancel tasks jobId).1 = false →
      (BatchWorker.cancel tasks jobId).2 = tasks) := by
  unfold BatchWorker.cancel
  cases h : List.lookup jobId tasks with
  | none => simp
  | some t =>
      cases hd : t.done with
      | false => simp [hd]
      | true => simp [hd]

/-- C6 witness: the fixture map with one live and one finished task. -/
theorem cancel_true_iff_live_task_witness :
    ((BatchWorker.cancel exTasks "j1").1 = true ↔
      ∃ t, List.lookup "j1" exTasks = some t ∧ t.done = false) ∧
    ((BatchWorker.cancel exTasks "j1").1 = false →
      (BatchWorker.cancel exTasks "j1").2 = exTasks) :=
  cancel_true_iff_live_task exTasks "j1"

/-- Helper: the shape shared by every branch of list_jobs is bounded by
the limit. -/
theorem listShape_length_le (rows : Store) (limit : Nat) :
    (((rows.insertionSort rowGeCreated).take limit).map jobFromRow).length ≤ limit := by
  rw [List.length_map, List.length_take]
  exact min_le_left _ _

/-- Helper: the shape shared by every branch of list_jobs is sorted by
descending created_at. -/
theorem listShape_sorted (rows : Store) (limit : Nat) :
    List.Sorted (fun a b : BatchJob => b.created_at ≤ a.created_at)
      (((rows.insertionSort rowGeCreated).take limit).map jobFromRow) := by
  have hs : List.Sorted rowGeCreated (rows.insertionSort rowGeCreated) :=
    List.sorted_insertionSort rowGeCreated rows
  have ht : List.Sorted rowGeCreated ((rows.insertionSort rowGeCreated).take limit) :=
    List.Pairwise.sublist (List.take_sublist limit _) hs
  exact List.pairwise_map.mpr ht

/-- C8 (amended): list_jobs returns at most limit records, ordered by
creation time descending, and when a NON-EMPTY status filter is supplied
every returned record has that status (an empty-string filter, being
falsy in Python, is treated as no filter at all). -/
theorem list_jobs_limit_order_filter (st : Store) (limit : Nat) (statusF : Option String) :
    (BatchJobStore.list_jobs st limit statusF).length ≤ limit ∧
    List.Sorted (fun a b : BatchJob => b.created_at ≤ a.created_at)
      (BatchJobStore.list_jobs st limit statusF) ∧
    (∀ s, statusF = some s → s ≠ "" →
      ∀ job ∈ BatchJobStore.list_jobs st limit statusF, job.status = s) := by
  cases statusF with
  | none =>
      simp only [BatchJobStore.list_jobs]
      refine ⟨listShape_length_le st limit, listShape_sorted st limit, ?_⟩
      intro s hs
      exact absurd hs (by simp)
  | some s =>
      simp only [BatchJobStore.list_jobs]
      by_cases he : s = ""
      · rw [if_pos he]
        refine ⟨listShape_length_le st limit, listShape_sorted st limit, ?_⟩
        intro s2 hs2 hne
        injection hs2 with hs2
        subst hs2
        exact absurd he hne
      · rw [if_neg he]
        refine ⟨listShape_length_le _ limit, listShape_sorted _ limit, ?_⟩
        intro s2 hs2 _ job hj
        injection hs2 with hs2
        subst hs2
        rw [List.mem_map] at hj
        obtain ⟨r, hr, rfl⟩ := hj
        have hr2 : r ∈ (st.filter (fun r => r.status == s)).insertionSort rowGeCreated :=
          List.take_subset _ _ hr
        have hr3 : r ∈ st.filter (fun r => r.status == s) :=
          (List.perm_insertionSort rowGeCreated _).mem_iff.mp hr2
        have hst := (List.mem_filter.mp hr3).2
        simpa [jobFromRow] using hst

/-- C8 witness: listing the two-job fixture store with limit 1 and filter
"done". -/
theorem list_jobs_limit_order_filter_witness :
    (BatchJobStore.list_jobs exSt2 1 (some "done")).length ≤ 1 ∧
    List.Sorted (fun a b : BatchJob => b.created_at ≤ a.created_at)
      (BatchJobStore.list_jobs exSt2 1 (some "done")) ∧
    (∀ s, some "done" = some s → s ≠ "" →
      ∀ job ∈ BatchJobStore.list_jobs exSt2 1 (some "done"), job.status = s) :=
  list_jobs_limit_order_filter exSt2 1 (some "done")

/-- C8 counterexample: with the filter set to the empty string the filter
clause is skipped (Python `if status:`), so a record whose status is
"queued" — not equal to the supplied filter — is returned. -/
theorem list_jobs_empty_filter_returns_other_statuses :
    (BatchJobStore.list_jobs exSt 10 (some "")).map BatchJob.status = ["queued"] ∧
    "queued" ≠ "" := by decide

/-- Helper: the language kwarg of the forwarded call. -/
theorem buildKwargs_language (options : PyDict) :
    (buildKwargs options).language =
      if (pyGet options "language").truthy then some (pyGet options "language")
      else Option.none := by
  unfold buildKwargs
  by_cases h1 : (pyGet options "language").truthy
  · by_cases h2 : (pyGet options "response_format").truthy
    · by_cases h3 : pyGet options "temperature" ≠ PyVal.none
      · simp [h1, h2, h3]
      · simp [h1, h2, h3]
    · by_cases h3 : pyGet options "temperature" ≠ PyVal.none
      · simp [h1, h2, h3]
      · simp [h1, h2, h3]
  · by_cases h2 : (pyGet options "response_format").truthy
    · by_cases h3 : pyGet options "temperature" ≠ PyVal.none
      · simp [h1, h2, h3]
      · simp [h1, h2, h3]
    · by_cases h3 : pyGet options "temperature" ≠ PyVal.none
      · simp [h1, h2, h3]
      · simp [h1, h2, h3]

/-- Helper: the response_format kwarg of the forwarded call. -/
theorem buildKwargs_response_format (options : PyDict) :
    (buildKwargs options).response_format =
      if (pyGet options "response_format").truthy then some (pyGet options "response_format")
      else Option.none := by
  unfold buildKwargs
  by_cases h1 : (pyGet options "language").truthy
  · by_cases h2 : (pyGet options "response_format").truthy
    · by_cases h3 : pyGet options "temperature" ≠ PyVal.none
      · simp [h1, h2, h3]
      · simp [h1, h2, h3]
    · by_cases h3 : pyGet options "temperature" ≠ PyVal.none
      · simp [h1, h2, h3]
      · simp [h1, h2, h3]
  · by_cases h2 : (pyGet options "response_format").truthy
    · by_cases h3 : pyGet options "temperature" ≠ PyVal.none
      · simp [h1, h2, h3]
      · simp [h1, h2, h3]
    · by_cases h3 : pyGet options "temperature" ≠ PyVal.none
      · simp [h1, h2, h3]
      · simp [h1, h2, h3]

/-- Helper: the temperature kwarg of the forwarded call. -/
theorem buildKwargs_temperature (options : PyDict) :
    (buildKwargs options).temperature =
      if pyGet options "temperature" ≠ PyVal.none then some (pyGet options "temperature")
      else Option.none := by
  unfold buildKwargs
  by_cases h1 : (pyGet options "language").truthy
  · by_cases h2 : (pyGet options "response_format").truthy
    · by_cases h3 : pyGet options "temperature" ≠ PyVal.none
      · simp [h1, h2, h3]
      · simp [h1, h2, h3]
    · by_cases h3 : pyGet options "temperature" ≠ PyVal.none
      · simp [h1, h2, h3]
      · simp [h1, h2, h3]
  · by_cases h2 : (pyGet options "response_format").truthy
    · by_cases h3 : pyGet options "temperature" ≠ PyVal.none
      · simp [h1, h2, h3]
      · simp [h1, h2, h3]
    · by_cases h3 : pyGet options "temperature" ≠ PyVal.none
      · simp [h1, h2, h3]
      · simp [h1, h2, h3]

/-- C9 (amended): the pipeline forwards language and response_format to
the transcription call exactly when the key maps to a truthy value in the
job's options, forwards temperature exactly when the key maps to a
non-None value, forwards the stored value in each case, and (by the shape
of the kwargs dict) forwards no other optional parameter. -/
theorem kwargs_forwarded_iff_truthy (options : PyDict) :
    ((buildKwargs options).language.isSome ↔
      ∃ v, List.lookup "language" options = some v ∧ v.truthy = true) ∧
    ((buildKwargs options).response_format.isSome ↔
      ∃ v, List.lookup "response_format" options = some v ∧ v.truthy = true) ∧
    ((buildKwargs options).temperature.isSome ↔
      ∃ v, List.lookup "temperature" options = some v ∧ v ≠ PyVal.none) ∧
    (∀ v, List.lookup "language" options = some v → v.truthy = true →
      (buildKwargs options).language = some v) ∧
    (∀ v, List.lookup "response_format" options = some v → v.truthy = true →
      (buildKwargs options).response_format = some v) ∧
    (∀ v, List.lookup "temperature" options = some v → v ≠ PyVal.none →
      (buildKwargs options).temperature = some v) := by
  rw [buildKwargs_language, buildKwargs_response_format, buildKwargs_temperature]
  refine ⟨?_, ?_, ?_, ?_, ?_, ?_⟩
  · cases hl : List.lookup "language" options with
    | none => simp [pyGet, hl, PyVal.truthy]
    | some v =>
        cases hv : v.truthy with
        | false => simp [pyGet, hl, hv]
        | true => simp [pyGet, hl, hv]
  · cases hl : List.lookup "response_format" options with
    | none => simp [pyGet, hl, PyVal.truthy]
    | some v =>
        cases hv : v.truthy with
        | false => simp [pyGet, hl, hv]
        | true => simp [pyGet, hl, hv]
  · cases hl : List.lookup "temperature" options with
    | none => simp [pyGet, hl]
    | some v =>
        by_cases hv : v = PyVal.none
        · simp [pyGet, hl, hv]
        · simp [pyGet, hl, hv]
  · intro v hl hv
    simp [pyGet, hl, hv]
  · intro v hl hv
    simp [pyGet, hl, hv]
  · intro v hl hv
    simp [pyGet, hl, hv]

/-- C9 witness: language present and truthy is forwarded; temperature
present with value 0 is forwarded. -/
theorem kwargs_forwarded_iff_truthy_witness :
    (((buildKwargs [("language", PyVal.str "en"), ("temperature", PyVal.num 0)]).language.isSome ↔
      ∃ v, List.lookup "language" [("language", PyVal.str "en"), ("temperature", PyVal.num 0)] =
        some v ∧ v.truthy = true) ∧
    ((buildKwargs [("language", PyVal.str "en"), ("temperature", PyVal.num 0)]).response_format.isSome ↔
      ∃ v, List.lookup "response_format" [("language", PyVal.str "en"), ("temperature", PyVal.num 0)] =
        some v ∧ v.truthy = true) ∧
    ((buildKwargs [("language", PyVal.str "en"), ("temperature", PyVal.num 0)]).temperature.isSome ↔
      ∃ v, List.lookup "temperature" [("language", PyVal.str "en"), ("temperature", PyVal.num 0)] =
        some v ∧ v ≠ PyVal.none) ∧
    (∀ v, List.lookup "language" [("language", PyVal.str "en"), ("temperature", PyVal.num 0)] =
        some v → v.truthy = true →
      (buildKwargs [("language", PyVal.str "en"), ("temperature", PyVal.num 0)]).language = some v) ∧
    (∀ v, List.lookup "response_format" [("language", PyVal.str "en"), ("temperature", PyVal.num 0)] =
        some v → v.truthy = true →
      (buildKwargs [("language", PyVal.str "en"), ("temperature", PyVal.num 0)]).response_format = some v) ∧
    (∀ v, List.lookup "temperature" [("language", PyVal.str "en"), ("temperature", PyVal.num 0)] =
        some v → v ≠ PyVal.none →
      (buildKwargs [("language", PyVal.str "en"), ("temperature", PyVal.num 0)]).temperature = some v)) :=
  kwargs_forwarded_iff_truthy [("language", PyVal.str "en"), ("temperature", PyVal.num 0)]

/-- C9 counterexample: the options dict contains the key "language" (bound
to the empty string, a falsy value), yet no language parameter is
forwarded — presence of the key alone does not imply inclusion. -/
theorem kwargs_present_key_not_forwarded :
    (List.lookup "language" [("language", PyVal.str "")]).isSome = true ∧
    (buildKwargs [("language", PyVal.str "")]).language = Option.none := by decide

/-- Helper: both result shapes carry the submitted filename. -/
theorem transcribeFile_filename (fn model : String) (options : PyDict) (a : AwaitOutcome) :
    (transcribeFile fn model options a).filename = fn := by
  cases a <;> rfl

/-- Helper: one expected result per file. -/
theorem expectedResults_length (model : String) (options : PyDict) (events : Nat → Event) :
    ∀ (files : List (String × Bytes)) (i : Nat),
      (expectedResults model options events files i).length = files.length := by
  intro files
  induction files with
  | nil => intro i; rfl
  | cons p rest ih =>
      obtain ⟨fn, audio⟩ := p
      intro i
      simp [expectedResults, ih]

/-- Helper: the expected results carry the filenames in submission order. -/
theorem expectedResults_map_filename (model : String) (options : PyDict) (events : Nat → Event) :
    ∀ (files : List (String × Bytes)) (i : Nat),
      (expectedResults model options events files i).map FileResult.filename =
        files.map Prod.fst := by
  intro files
  induction files with
  | nil => intro i; rfl
  | cons p rest ih =>
      obtain ⟨fn, audio⟩ := p
      intro i
      simp [expectedResults, ih, transcribeFile_filename]

/-- Helper: the k-th expected result is the pipeline applied to the k-th
file and its await outcome. -/
theorem expectedResults_getIdx (model : String) (options : PyDict) (events : Nat → Event) :
    ∀ (files : List (String × Bytes)) (i k : Nat),
      (expectedResults model options events files i)[k]? =
        (files[k]?).map
          (fun p => transcribeFile p.1 model options (retOutcome (events (i + k)))) := by
  intro files
  induction files with
  | nil => intro i k; simp [expectedResults]
  | cons p rest ih =>
      obtain ⟨fn, audio⟩ := p
      intro i k
      cases k with
      | zero => simp [expectedResults]
      | succ k2 =>
          have hidx : i + 1 + k2 = i + (k2 + 1) := by omega
          simp only [expectedResults, List.getElem?_cons_succ]
          rw [ih (i + 1) k2, hidx]

/-- Helper: running the loop with every await completing and every store
write succeeding ends normally with the done-update persisted. -/
theorem processLoop_no_cancel_no_fault (jobId model : String) (options : PyDict)
    (events : Nat → Event) (updBehav : Nat → Option String) (tEnd : Nat)
    (hupd : ∀ n, updBehav n = Option.none) :
    ∀ (files : List (String × Bytes)) (i : Nat) (acc : List FileResult)
      (st : Store) (row : Row),
      st.find? (fun r => r.job_id == jobId) = some row →
      (∀ j, j < files.length → events (i + j) ≠ Event.cancel) →
      (processLoop jobId model options events updBehav tEnd files i acc st).2 =
        JobExit.normal ∧
      ∃ job, BatchJobStore.get
          (processLoop jobId model options events updBehav tEnd files i acc st).1 jobId =
          some job ∧
        job.status = "done" ∧ job.finished_at = some tEnd ∧
        job.results = acc ++ expectedResults model options events files i := by
  intro files
  induction files with
  | nil =>
      intro i acc st row hrow hnc
      simp only [processLoop, hupd]
      refine ⟨by trivial, ?_⟩
      refine ⟨_, get_after_update st jobId _ row hrow, rfl, rfl, ?_⟩
      simp [jobFromRow_updatedRow, applyFields, expectedResults]
  | cons p rest ih =>
      obtain ⟨fn, audio⟩ := p
      intro i acc st row hrow hnc
      have hnc0 : events i ≠ Event.cancel := by
        have h0 := hnc 0 (by simp)
        simpa using h0
      cases hev : events i with
      | cancel => exact absurd hev hnc0
      | ret a =>
          simp only [processLoop, hev, hupd]
          have hst2 : ((BatchJobStore.update st jobId
              { results := some (acc ++ [transcribeFile fn model options a]) }).2).find?
              (fun r => r.job_id == jobId) =
              some (updatedRow row
                { results := some (acc ++ [transcribeFile fn model options a]) }) := by
            rw [update_eq_of_found st jobId _ row hrow]
            exact find?_map_update jobId _ row st hrow
          have hnc2 : ∀ j, j < rest.length → events (i + 1 + j) ≠ Event.cancel := by
            intro j hj
            have h2 := hnc (j + 1) (by simpa using Nat.succ_lt_succ hj)
            have h3 : i + (j + 1) = i + 1 + j := by omega
            rwa [h3] at h2
          obtain ⟨hexit, job, hget, hst, hfin, hres⟩ :=
            ih (i + 1) (acc ++ [transcribeFile fn model options a]) _ _ hst2 hnc2
          refine ⟨hexit, job, hget, hst, hfin, ?_⟩
          rw [hres]
          simp [expectedResults, hev, retOutcome]

/-- Helper: a full job run with every await completing and every store
write succeeding persists the done state with the expected results. -/
theorem processJob_no_cancel_no_fault (st : Store) (jobId : String)
    (files : List (String × Bytes)) (options : PyDict) (events : Nat → Event)
    (updBehav : Nat → Option String) (tStart tEnd : Nat) (row : Row)
    (hrow : st.find? (fun r => r.job_id == jobId) = some row)
    (hnc : ∀ j, j < files.length → events j ≠ Event.cancel)
    (hupd : ∀ n, updBehav n = Option.none) :
    (processJob st jobId files options events updBehav tStart tEnd).2 = JobExit.normal ∧
    ∃ job, BatchJobStore.get
        (processJob st jobId files options events updBehav tStart tEnd).1 jobId = some job ∧
      job.status = "done" ∧ job.finished_at = some tEnd ∧
      job.results = expectedResults (optModel options) options events files 0 := by
  have hst0 : ((BatchJobStore.update st jobId
      { status := some "running", started_at := some (some tStart) }).2).find?
      (fun r => r.job_id == jobId) =
      some (updatedRow row { status := some "running", started_at := some (some tStart) }) := by
    rw [update_eq_of_found st jobId _ row hrow]
    exact find?_map_update jobId _ row st hrow
  have hnc0 : ∀ j, j < files.length → events (0 + j) ≠ Event.cancel := by
    intro j hj
    simpa using hnc j hj
  obtain ⟨hexit, job, hget, hst, hfin, hres⟩ :=
    processLoop_no_cancel_no_fault jobId (optModel options) options events updBehav tEnd hupd
      files 0 [] _ _ hst0 hnc0
  unfold processJob
  rw [hupd 0]
  exact ⟨hexit, job, hget, hst, hfin, by simpa using hres⟩

/-- C1: when every per-file pipeline invocation returns (no cancellation
signal) and no store write faults, the final persisted job has status
"done", a set finished_at, and a results list with exactly one entry per
submitted file carrying the filenames in submission order. -/
theorem job_success_persists_done_in_order (st : Store) (jobId : String)
    (files : List (String × Bytes)) (options : PyDict) (events : Nat → Event)
    (updBehav : Nat → Option String) (tStart tEnd : Nat) (row : Row)
    (hrow : st.find? (fun r => r.job_id == jobId) = some row)
    (hnc : ∀ j, j < files.length → events j ≠ Event.cancel)
    (hupd : ∀ n, updBehav n = Option.none) :
    (processJob st jobId files options events updBehav tStart tEnd).2 = JobExit.normal ∧
    (BatchJobStore.get (processJob st jobId files options events updBehav tStart tEnd).1
        jobId).map BatchJob.status = some "done" ∧
    (BatchJobStore.get (processJob st jobId files options events updBehav tStart tEnd).1
        jobId).map BatchJob.finished_at = some (some tEnd) ∧
    (BatchJobStore.get (processJob st jobId files options events updBehav tStart tEnd).1
        jobId).map (fun job => job.results.length) = some files.length ∧
    (BatchJobStore.get (processJob st jobId files options events updBehav tStart tEnd).1
        jobId).map (fun job => job.results.map FileResult.filename) =
      some (files.map Prod.fst) := by
  obtain ⟨hexit, job, hget, hst, hfin, hres⟩ :=
    processJob_no_cancel_no_fault st jobId files options events updBehav tStart tEnd row
      hrow hnc hupd
  refine ⟨hexit, ?_, ?_, ?_, ?_⟩ <;> rw [hget]
  · simp [hst]
  · simp [hfin]
  · simp [hres, expectedResults_length]
  · simp [hres, expectedResults_map_filename]

/-- C1 witness: a two-file job against an always-succeeding stub. -/
theorem job_success_persists_done_in_order_witness :
    (processJob exSt "j1" [("a.wav", []), ("b.wav", [])] [("model", PyVal.str "base")]
        allOkEvents noFaults 10 20).2 = JobExit.normal ∧
    (BatchJobStore.get (processJob exSt "j1" [("a.wav", []), ("b.wav", [])]
        [("model", PyVal.str "base")] allOkEvents noFaults 10 20).1
        "j1").map BatchJob.status = some "done" ∧
    (BatchJobStore.get (processJob exSt "j1" [("a.wav", []), ("b.wav", [])]
        [("model", PyVal.str "base")] allOkEvents noFaults 10 20).1
        "j1").map BatchJob.finished_at = some (some 20) ∧
    (BatchJobStore.get (processJob exSt "j1" [("a.wav", []), ("b.wav", [])]
        [("model", PyVal.str "base")] allOkEvents noFaults 10 20).1
        "j1").map (fun job => job.results.length) = some 2 ∧
    (BatchJobStore.get (processJob exSt "j1" [("a.wav", []), ("b.wav", [])]
        [("model", PyVal.str "base")] allOkEvents noFaults 10 20).1
        "j1").map (fun job => job.results.map FileResult.filename) =
      some ["a.wav", "b.wav"] :=
  job_success_persists_done_in_order exSt "j1" [("a.wav", []), ("b.wav", [])]
    [("model", PyVal.str "base")] allOkEvents noFaults 10 20 exRow (by decide)
    (fun j _ => by simp [allOkEvents]) (fun n => rfl)

/-- C2 (amended): a file whose transcription call raises returns a
failed-result carrying the exception's message and a processing time
instead of raising; the enclosing job still finishes with status "done",
the failing file's result entry has status "failed" with its error field
equal to the exception's message (hence non-empty exactly when that
message is non-empty), and a file whose call returned normally keeps a
"done" entry. -/
theorem job_partial_failure_still_done (st : Store) (jobId : String)
    (files : List (String × Bytes)) (options : PyDict) (events : Nat → Event)
    (updBehav : Nat → Option String) (tStart tEnd : Nat) (row : Row)
    (k : Nat) (fn : String) (audio : Bytes) (msg : String) (ms : Nat)
    (j : Nat) (res : RouterRes) (ems : Nat)
    (hrow : st.find? (fun r => r.job_id == jobId) = some row)
    (hnc : ∀ m, m < files.length → events m ≠ Event.cancel)
    (hupd : ∀ n, updBehav n = Option.none)
    (hfile : files[k]? = some (fn, audio))
    (hev : events k = Event.ret (AwaitOutcome.exn msg ms))
    (hj : j < files.length)
    (hevj : events j = Event.ret (AwaitOutcome.ok res ems)) :
    transcribeFile fn (optModel options) options (AwaitOutcome.exn msg ms) =
      FileResult.failed fn msg ms ∧
    (FileResult.failed fn msg ms).errorMsg = some msg ∧
    (processJob st jobId files options events updBehav tStart tEnd).2 = JobExit.normal ∧
    (BatchJobStore.get (processJob st jobId files options events updBehav tStart tEnd).1
        jobId).map BatchJob.status = some "done" ∧
    (BatchJobStore.get (processJob st jobId files options events updBehav tStart tEnd).1
        jobId).map (fun job => job.results[k]?) =
      some (some (FileResult.failed fn msg ms)) ∧
    (BatchJobStore.get (processJob st jobId files options events updBehav tStart tEnd).1
        jobId).map (fun job => (job.results[j]?).map FileResult.status) =
      some (some "done") := by
  obtain ⟨hexit, job, hget, hst, hfin, hres⟩ :=
    processJob_no_cancel_no_fault st jobId files options events updBehav tStart tEnd row
      hrow hnc hupd
  refine ⟨rfl, rfl, hexit, ?_, ?_, ?_⟩ <;> rw [hget]
  · simp [hst]
  · rw [Option.map_some']
    rw [hres, expectedResults_getIdx]
    simp [hfile, hev, retOutcome, transcribeFile]
  · rw [Option.map_some']
    have hp := List.getElem?_eq_getElem hj
    rw [hres, expectedResults_getIdx]
    simp only [Nat.zero_add]
    rw [hp]
    simp [hevj, retOutcome, transcribeFile, FileResult.status]

/-- C2 witness: a good file followed by a file whose call raises
"disk error". -/
theorem job_partial_failure_still_done_witness :
    transcribeFile "bad.wav" (optModel [("model", PyVal.str "base")])
        [("model", PyVal.str "base")] (AwaitOutcome.exn "disk error" 7) =
      FileResult.failed "bad.wav" "disk error" 7 ∧
    (FileResult.failed "bad.wav" "disk error" 7).errorMsg = some "disk error" ∧
    (processJob exSt "j1" [("good.wav", []), ("bad.wav", [])] [("model", PyVal.str "base")]
        mixedEvents noFaults 10 20).2 = JobExit.normal ∧
    (BatchJobStore.get (processJob exSt "j1" [("good.wav", []), ("bad.wav", [])]
        [("model", PyVal.str "base")] mixedEvents noFaults 10 20).1
        "j1").map BatchJob.status = some "done" ∧
    (BatchJobStore.get (processJob exSt "j1" [("good.wav", []), ("bad.wav", [])]
        [("model", PyVal.str "base")] mixedEvents noFaults 10 20).1
        "j1").map (fun job => job.results[1]?) =
      some (some (FileResult.failed "bad.wav" "disk error" 7)) ∧
    (BatchJobStore.get (processJob exSt "j1" [("good.wav", []), ("bad.wav", [])]
        [("model", PyVal.str "base")] mixedEvents noFaults 10 20).1
        "j1").map (fun job => (job.results[0]?).map FileResult.status) =
      some (some "done") :=
  job_partial_failure_still_done exSt "j1" [("good.wav", []), ("bad.wav", [])]
    [("model", PyVal.str "base")] mixedEvents noFaults 10 20 exRow 1 "bad.wav" [] "disk error" 7
    0 { text := some "hello world" } 5 (by decide)
    (fun m _ => by unfold mixedEvents; split <;> simp) (fun n => rfl)
    (by decide) (by decide) (by decide) (by decide)

/-- C2 counterexample: an exception whose message is the empty string
(Python's str(e) for a bare Exception()) produces a persisted failed
entry whose error field is the EMPTY string, refuting the claimed
non-empty error field. -/
theorem job_failed_entry_error_can_be_empty :
    (BatchJobStore.get (processJob exSt "j1" [("good.wav", []), ("bad.wav", [])]
        [("model", PyVal.str "base")] emptyMsgEvents noFaults 10 20).1
        "j1").map (fun job => (job.results[1]?).map FileResult.errorMsg) =
      some (some (some "")) ∧
    String.length "" = 0 := by decide

/-- Helper: a cancellation delivered at the k-th remaining file's await
makes the loop persist the failed/Cancelled state on top of whatever
results are already stored (the invariant ties the stored results to the
in-memory accumulator) and exit with the cancellation re-raised. -/
theorem processLoop_cancelled (jobId model : String) (options : PyDict)
    (events : Nat → Event) (updBehav : Nat → Option String) (tEnd : Nat)
    (hupd : ∀ n, updBehav n = Option.none) :
    ∀ (files : List (String × Bytes)) (k i : Nat) (acc : List FileResult)
      (st : Store) (row : Row),
      st.find? (fun r => r.job_id == jobId) = some row →
      row.payload.results = acc →
      k < files.length →
      events (i + k) = Event.cancel →
      (∀ j, j < k → events (i + j) ≠ Event.cancel) →
      (processLoop jobId model options events updBehav tEnd files i acc st).2 =
        JobExit.cancelled ∧
      ∃ job, BatchJobStore.get
          (processLoop jobId model options events updBehav tEnd files i acc st).1 jobId =
          some job ∧
        job.status = "failed" ∧ job.error = some "Cancelled" ∧
        job.finished_at = some tEnd ∧
        job.results = acc ++ expectedResults model options events (files.take k) i := by
  intro files
  induction files with
  | nil =>
      intro k i acc st row _ _ hk _ _
      exact absurd hk (by simp)
  | cons p rest ih =>
      obtain ⟨fn, audio⟩ := p
      intro k i acc st row hrow hacc hk hkc hbefore
      cases k with
      | zero =>
          have hkc0 : events i = Event.cancel := by simpa using hkc
          simp only [processLoop, hkc0]
          refine ⟨by trivial, ?_⟩
          refine ⟨_, get_after_update st jobId _ row hrow, rfl, rfl, rfl, ?_⟩
          simpa [jobFromRow_updatedRow, applyFields, failedFields, jobFromRow,
            expectedResults] using hacc
      | succ k2 =>
          have hnc0 : events i ≠ Event.cancel := by
            have h0 := hbefore 0 (Nat.succ_pos k2)
            simpa using h0
          cases hev : events i with
          | cancel => exact absurd hev hnc0
          | ret a =>
              simp only [processLoop, hev, hupd]
              have hst2 : ((BatchJobStore.update st jobId
                  { results := some (acc ++ [transcribeFile fn model options a]) }).2).find?
                  (fun r => r.job_id == jobId) =
                  some (updatedRow row
                    { results := some (acc ++ [transcribeFile fn model options a]) }) := by
                rw [update_eq_of_found st jobId _ row hrow]
                exact find?_map_update jobId _ row st hrow
              have hk2 : k2 < rest.length := by
                simpa using Nat.lt_of_succ_lt_succ hk
              have hkc2 : events (i + 1 + k2) = Event.cancel := by
                have h3 : i + (k2 + 1) = i + 1 + k2 := by omega
                rwa [h3] at hkc
              have hb2 : ∀ j, j < k2 → events (i + 1 + j) ≠ Event.cancel := by
                intro j hj
                have h2 := hbefore (j + 1) (Nat.succ_lt_succ hj)
                have h3 : i + (j + 1) = i + 1 + j := by omega
                rwa [h3] at h2
              obtain ⟨hexit, job, hget, hs, herr, hfin, hres⟩ :=
                ih k2 (i + 1) (acc ++ [transcribeFile fn model options a]) _ _ hst2 rfl
                  hk2 hkc2 hb2
              refine ⟨hexit, job, hget, hs, herr, hfin, ?_⟩
              rw [hres]
              simp [List.take_succ_cons, expectedResults, hev, retOutcome]

/-- C3: a cancellation signal delivered at any per-file suspension point
makes the task persist status "failed", error "Cancelled" and a set
finished_at, then re-raise the cancellation (exit = cancelled); the
per-file results persisted before that moment (one per already-completed
file, in order) remain in the stored job. -/
theorem job_cancelled_persists_failed_then_reraises (st : Store) (jobId : String)
    (files : List (String × Bytes)) (options : PyDict) (events : Nat → Event)
    (updBehav : Nat → Option String) (tStart tEnd : Nat) (row : Row) (k : Nat)
    (hrow : st.find? (fun r => r.job_id == jobId) = some row)
    (hres0 : row.payload.results = [])
    (hupd : ∀ n, updBehav n = Option.none)
    (hk : k < files.length)
    (hkc : events k = Event.cancel)
    (hbefore : ∀ j, j < k → events j ≠ Event.cancel) :
    (processJob st jobId files options events updBehav tStart tEnd).2 =
      JobExit.cancelled ∧
    (BatchJobStore.get (processJob st jobId files options events updBehav tStart tEnd).1
        jobId).map BatchJob.status = some "failed" ∧
    (BatchJobStore.get (processJob st jobId files options events updBehav tStart tEnd).1
        jobId).map BatchJob.error = some (some "Cancelled") ∧
    (BatchJobStore.get (processJob st jobId files options events updBehav tStart tEnd).1
        jobId).map BatchJob.finished_at = some (some tEnd) ∧
    (BatchJobStore.get (processJob st jobId files options events updBehav tStart tEnd).1
        jobId).map BatchJob.results =
      some (expectedResults (optModel options) options events (files.take k) 0) ∧
    (BatchJobStore.get (processJob st jobId files options events updBehav tStart tEnd).1
        jobId).map (fun job => job.results.length) = some k := by
  have hst0 : ((BatchJobStore.update st jobId
      { status := some "running", started_at := some (some tStart) }).2).find?
      (fun r => r.job_id == jobId) =
      some (updatedRow row { status := some "running", started_at := some (some tStart) }) := by
    rw [update_eq_of_found st jobId _ row hrow]
    exact find?_map_update jobId _ row st hrow
  have hacc0 : (updatedRow row
      { status := some "running", started_at := some (some tStart) }).payload.results =
      ([] : List FileResult) := hres0
  have hkc0 : events (0 + k) = Event.cancel := by simpa using hkc
  have hb0 : ∀ j, j < k → events (0 + j) ≠ Event.cancel := by
    intro j hj
    simpa using hbefore j hj
  obtain ⟨hexit, job, hget, hs, herr, hfin, hres⟩ :=
    processLoop_cancelled jobId (optModel options) options events updBehav tEnd hupd
      files k 0 [] _ _ hst0 hacc0 hk hkc0 hb0
  unfold processJob
  rw [hupd 0]
  refine ⟨hexit, ?_, ?_, ?_, ?_, ?_⟩ <;> rw [hget]
  · simp [hs]
  · simp [herr]
  · simp [hfin]
  · simp [hres]
  · have hlen : (expectedResults (optModel options) options events (files.take k) 0).length
        = k := by
      rw [expectedResults_length, List.length_take]
      exact Nat.min_eq_left (Nat.le_of_lt hk)
    simp [hres, hlen]

/-- C3 witness: cancellation delivered at the second file's await after
the first file completed. -/
theorem job_cancelled_persists_failed_then_reraises_witness :
    (processJob exSt "j1" [("a.wav", []), ("b.wav", [])] [("model", PyVal.str "base")]
        cancelAt1Events noFaults 10 20).2 = JobExit.cancelled ∧
    (BatchJobStore.get (processJob exSt "j1" [("a.wav", []), ("b.wav", [])]
        [("model", PyVal.str "base")] cancelAt1Events noFaults 10 20).1
        "j1").map BatchJob.status = some "failed" ∧
    (BatchJobStore.get (processJob exSt "j1" [("a.wav", []), ("b.wav", [])]
        [("model", PyVal.str "base")] cancelAt1Events noFaults 10 20).1
        "j1").map BatchJob.error = some (some "Cancelled") ∧
    (BatchJobStore.get (processJob exSt "j1" [("a.wav", []), ("b.wav", [])]
        [("model", PyVal.str "base")] cancelAt1Events noFaults 10 20).1
        "j1").map BatchJob.finished_at = some (some 20) ∧
    (BatchJobStore.get (processJob exSt "j1" [("a.wav", []), ("b.wav", [])]
        [("model", PyVal.str "base")] cancelAt1Events noFaults 10 20).1
        "j1").map BatchJob.results =
      some [FileResult.done "a.wav" "hello world" "" 0 "base" [] 5] ∧
    (BatchJobStore.get (processJob exSt "j1" [("a.wav", []), ("b.wav", [])]
        [("model", PyVal.str "base")] cancelAt1Events noFaults 10 20).1
        "j1").map (fun job => job.results.length) = some 1 :=
  job_cancelled_persists_failed_then_reraises exSt "j1" [("a.wav", []), ("b.wav", [])]
    [("model", PyVal.str "base")] cancelAt1Events noFaults 10 20 exRow 1 (by decide)
    (by decide) (fun n => rfl) (by decide) (by decide)
    (fun j hj => by
      have hj0 : j = 0 := by omega
      subst hj0
      simp [cancelAt1Events])

/-- Helper: if the n-th store.update call of the try block raises (and all
earlier ones from the current position succeed, with no cancellation),
the loop records the failed state with the fault's message and returns
normally: the fault is absorbed. -/
theorem processLoop_fault_absorbed (jobId model : String) (options : PyDict)
    (events : Nat → Event) (updBehav : Nat → Option String) (tEnd : Nat)
    (n : Nat) (msg : String) (hfault : updBehav n = some msg) :
    ∀ (files : List (String × Bytes)) (i : Nat) (acc : List FileResult)
      (st : Store) (row : Row),
      st.find? (fun r => r.job_id == jobId) = some row →
      (∀ j, j < files.length → events (i + j) ≠ Event.cancel) →
      i + 1 ≤ n → n ≤ i + files.length + 1 →
      (∀ m, i + 1 ≤ m → m < n → updBehav m = Option.none) →
      (processLoop jobId model options events updBehav tEnd files i acc st).2 =
        JobExit.normal ∧
      ∃ job, BatchJobStore.get
          (processLoop jobId model options events updBehav tEnd files i acc st).1 jobId =
          some job ∧
        job.status = "failed" ∧ job.error = some msg ∧
        job.finished_at = some tEnd := by
  intro files
  induction files with
  | nil =>
      intro i acc st row hrow _ hn1 hn2 _
      have hn : n = i + 1 := by
        simp only [List.length_nil] at hn2
        omega
      have hupd1 : updBehav (i + 1) = some msg := by
        rw [← hn]
        exact hfault
      simp only [processLoop, hupd1]
      exact ⟨by trivial, _, get_after_update st jobId _ row hrow, rfl, rfl, rfl⟩
  | cons p rest ih =>
      obtain ⟨fn, audio⟩ := p
      intro i acc st row hrow hnc hn1 hn2 hmid
      have hnc0 : events i ≠ Event.cancel := by
        have h0 := hnc 0 (by simp)
        simpa using h0
      cases hev : events i with
      | cancel => exact absurd hev hnc0
      | ret a =>
          by_cases hni : n = i + 1
          · have hupd1 : updBehav (i + 1) = some msg := by
              rw [← hni]
              exact hfault
            simp only [processLoop, hev, hupd1]
            exact ⟨by trivial, _, get_after_update st jobId _ row hrow, rfl, rfl, rfl⟩
          · have hupd1 : updBehav (i + 1) = Option.none :=
              hmid (i + 1) (Nat.le_refl _) (by omega)
            simp only [processLoop, hev, hupd1]
            have hst2 : ((BatchJobStore.update st jobId
                { results := some (acc ++ [transcribeFile fn model options a]) }).2).find?
                (fun r => r.job_id == jobId) =
                some (updatedRow row
                  { results := some (acc ++ [transcribeFile fn model options a]) }) := by
              rw [update_eq_of_found st jobId _ row hrow]
              exact find?_map_update jobId _ row st hrow
            have hnc2 : ∀ j, j < rest.length → events (i + 1 + j) ≠ Event.cancel := by
              intro j hj
              have h2 := hnc (j + 1) (by simpa using Nat.succ_lt_succ hj)
              have h3 : i + (j + 1) = i + 1 + j := by omega
              rwa [h3] at h2
            have hb1 : i + 1 + 1 ≤ n := by omega
            have hb2 : n ≤ i + 1 + rest.length + 1 := by
              simp only [List.length_cons] at hn2
              omega
            have hmid2 : ∀ m, i + 1 + 1 ≤ m → m < n → updBehav m = Option.none := by
              intro m hm1 hm2
              exact hmid m (by omega) hm2
            exact ih (i + 1) (acc ++ [transcribeFile fn model options a]) _ _ hst2 hnc2
              hb1 hb2 hmid2

/-- C5: a non-cancellation fault raised by one of the store.update calls
inside the task body (the only statements other than the per-file calls,
whose exceptions are already absorbed per file) is caught at the task
boundary: the job is marked failed with the fault's message and a set
finished_at, and the body returns normally — the fault is not re-raised. -/
theorem job_store_fault_recorded_and_absorbed (st : Store) (jobId : String)
    (files : List (String × Bytes)) (options : PyDict) (events : Nat → Event)
    (updBehav : Nat → Option String) (tStart tEnd : Nat) (row : Row)
    (n : Nat) (msg : String)
    (hrow : st.find? (fun r => r.job_id == jobId) = some row)
    (hnc : ∀ j, j < files.length → events j ≠ Event.cancel)
    (hfault : updBehav n = some msg)
    (hbound : n ≤ files.length + 1)
    (hbefore : ∀ m, m < n → updBehav m = Option.none) :
    (processJob st jobId files options events updBehav tStart tEnd).2 = JobExit.normal ∧
    (BatchJobStore.get (processJob st jobId files options events updBehav tStart tEnd).1
        jobId).map BatchJob.status = some "failed" ∧
    (BatchJobStore.get (processJob st jobId files options events updBehav tStart tEnd).1
        jobId).map BatchJob.error = some (some msg) ∧
    (BatchJobStore.get (processJob st jobId files options events updBehav tStart tEnd).1
        jobId).map BatchJob.finished_at = some (some tEnd) := by
  cases n with
  | zero =>
      unfold processJob
      rw [hfault]
      have hget := get_after_update st jobId (failedFields tEnd msg) row hrow
      refine ⟨by trivial, ?_, ?_, ?_⟩ <;> rw [hget] <;> rfl
  | succ n2 =>
      have h0 : updBehav 0 = Option.none := hbefore 0 (Nat.succ_pos n2)
      have hst0 : ((BatchJobStore.update st jobId
          { status := some "running", started_at := some (some tStart) }).2).find?
          (fun r => r.job_id == jobId) =
          some (updatedRow row
            { status := some "running", started_at := some (some tStart) }) := by
        rw [update_eq_of_found st jobId _ row hrow]
        exact find?_map_update jobId _ row st hrow
      have hnc0 : ∀ j, j < files.length → events (0 + j) ≠ Event.cancel := by
        intro j hj
        simpa using hnc j hj
      obtain ⟨hexit, job, hget, hs, herr, hfin⟩ :=
        processLoop_fault_absorbed jobId (optModel options) options events updBehav tEnd
          (n2 + 1) msg hfault files 0 [] _ _ hst0 hnc0 (by omega) (by omega)
          (fun m hm1 hm2 => hbefore m hm2)
      unfold processJob
      rw [h0]
      refine ⟨hexit, ?_, ?_, ?_⟩ <;> rw [hget]
      · simp [hs]
      · simp [herr]
      · simp [hfin]

/-- C5 witness: the incremental store write after the first file raises
"database is locked"; the job is marked failed with that message and the
body exits normally. -/
theorem job_store_fault_recorded_and_absorbed_witness :
    (processJob exSt "j1" [("a.wav", []), ("b.wav", [])] [("model", PyVal.str "base")]
        allOkEvents faultAt1 10 20).2 = JobExit.normal ∧
    (BatchJobStore.get (processJob exSt "j1" [("a.wav", []), ("b.wav", [])]
        [("model", PyVal.str "base")] allOkEvents faultAt1 10 20).1
        "j1").map BatchJob.status = some "failed" ∧
    (BatchJobStore.get (processJob exSt "j1" [("a.wav", []), ("b.wav", [])]
        [("model", PyVal.str "base")] allOkEvents faultAt1 10 20).1
        "j1").map BatchJob.error = some (some "database is locked") ∧
    (BatchJobStore.get (processJob exSt "j1" [("a.wav", []), ("b.wav", [])]
        [("model", PyVal.str "base")] allOkEvents faultAt1 10 20).1
        "j1").map BatchJob.finished_at = some (some 20) :=
  job_store_fault_recorded_and_absorbed exSt "j1" [("a.wav", []), ("b.wav", [])]
    [("model", PyVal.str "base")] allOkEvents faultAt1 10 20 exRow 1 "database is locked"
    (by decide) (fun j _ => by simp [allOkEvents]) (by decide) (by decide)
    (fun m hm => by
      have hm0 : m = 0 := by omega
      subst hm0
      rfl)
